import Mathlib

/-!
Verification development for the unique random IP sampler
(`generate_ips` in `test.IpGen/ipgen.py`).

The embedding models:
  - the IPv4 dotted-quad CIDR fragment of Python `ipaddress.ip_network`
    with its default `strict=True` (octet rules of `_parse_octet`:
    non-empty, decimal digits only, at most 3 characters, no leading
    zeros, value at most 255; exactly four octets; at most one slash;
    the prefix length is a non-empty decimal digit string of value at
    most 32; host bits set is a parse error).  IPv6 and
    netmask-notation forms are outside the modelled fragment.
  - `network.hosts()` of `IPv4Network`: for prefix length at most 30
    all addresses strictly between the network and broadcast address,
    for a /31 both of its addresses, for a /32 the single address.
  - the warnings the script prints, as structured `Warning` values.
  - `random.choice` via an explicit stream `s : Nat → Nat` of draws
    (the draw at step `i` picks index `s i % pool.length`), and the
    `while len(unique_ips) < num_ips` loop via explicit fuel: a `none`
    result means the loop has not finished within the given fuel, for
    any amount of fuel, i.e. divergence.  The accumulated Python `set`
    is modelled as a duplicate-free list in insertion order; the final
    `",".join(...)` is `joinComma` (join order is unspecified by the
    spec, so theorems speak about the joined list).
-/

namespace IpGen

/-- Models Python `str.split(sep)` for a single-character separator,
working on the character list of the string. -/
def splitOnChar (c : Char) : List Char → List (List Char)
  | [] => [[]]
  | x :: xs =>
    if x = c then [] :: splitOnChar c xs
    else
      match splitOnChar c xs with
      | [] => [[x]]
      | g :: gs => (x :: g) :: gs

/-- Decimal value of a digit character. -/
def digitVal (c : Char) : Nat := c.toNat - '0'.toNat

/-- Models `int(s, 10)` on a string of decimal digits. -/
def digitsToNat (l : List Char) : Nat := l.foldl (fun a c => a * 10 + digitVal c) 0

/-- Models `ipaddress._parse_octet`: non-empty, decimal digits only, at
most three characters, no leading zeros, value at most 255. -/
def parseOctet (l : List Char) : Option Nat :=
  if l = [] then none
  else if ¬ l.all Char.isDigit then none
  else if 3 < l.length then none
  else if 1 < l.length ∧ l.head? = some '0' then none
  else if 255 < digitsToNat l then none
  else some (digitsToNat l)

/-- Models `ipaddress._ip_int_from_string`: exactly four octets
separated by dots, combined big-endian into a 32-bit value. -/
def parseIPv4Addr (l : List Char) : Option Nat :=
  match splitOnChar '.' l with
  | [a, b, c, d] => do
    let va ← parseOctet a
    let vb ← parseOctet b
    let vc ← parseOctet c
    let vd ← parseOctet d
    pure (((va * 256 + vb) * 256 + vc) * 256 + vd)
  | _ => none

/-- Models `ipaddress._prefix_from_prefix_string`: a non-empty decimal
digit string whose value is at most 32. -/
def parsePrefixLen (l : List Char) : Option Nat :=
  if l = [] then none
  else if ¬ l.all Char.isDigit then none
  else if 32 < digitsToNat l then none
  else some (digitsToNat l)

/-- An IPv4 network: network address (as a 32-bit value) and prefix
length, the data of Python `IPv4Network`. -/
structure IPv4Network where
  networkAddress : Nat
  prefixlen : Nat
  deriving DecidableEq

/-- Number of addresses in the block (`network.num_addresses`). -/
def IPv4Network.numAddresses (nw : IPv4Network) : Nat := 2 ^ (32 - nw.prefixlen)

/-- The broadcast address of the block (`network.broadcast_address`). -/
def IPv4Network.broadcastAddress (nw : IPv4Network) : Nat :=
  nw.networkAddress + nw.numAddresses - 1

/-- Models `ipaddress.ip_network(s)` with `strict=True` on the IPv4
dotted-quad fragment: at most one slash, a missing prefix means /32,
and any set host bit is a parse error. -/
def ip_network (str : String) : Option IPv4Network :=
  match splitOnChar '/' str.toList with
  | [addr] => (parseIPv4Addr addr).map (fun ip => ⟨ip, 32⟩)
  | [addr, pfx] => do
    let ip ← parseIPv4Addr addr
    let pl ← parsePrefixLen pfx
    if ip % 2 ^ (32 - pl) = 0 then pure ⟨ip, pl⟩ else none
  | _ => none

/-- Models `network.hosts()` for `IPv4Network` (as 32-bit values): all
strictly interior addresses for prefix length at most 30; both
addresses of a /31; the single address of a /32. -/
def IPv4Network.hostsNat (nw : IPv4Network) : List Nat :=
  if nw.prefixlen = 32 then [nw.networkAddress]
  else if nw.prefixlen = 31 then [nw.networkAddress, nw.networkAddress + 1]
  else (List.range (nw.numAddresses - 2)).map (fun i => nw.networkAddress + 1 + i)

/-- Models `str(ip)` for `IPv4Address`: dotted-quad decimal. -/
def ipToString (ip : Nat) : String :=
  toString (ip / 2 ^ 24 % 256) ++ "." ++ toString (ip / 2 ^ 16 % 256) ++ "." ++
    toString (ip / 2 ^ 8 % 256) ++ "." ++ toString (ip % 256)

/-- The warnings `generate_ips` prints, as structured values: one per
invalid range, and one when the requested count is clamped to the pool
size. -/
inductive Warning where
  | invalidRange (range : String)
  | clamp (requested : Nat) (available : Nat)
  deriving DecidableEq

/-- The per-range loop of `generate_ips`: for each range string, parse
it; on success append the host-address strings to the pool, on failure
record a warning and skip the range.  Returns the cumulative pool (in
range order, duplicates kept) and the warnings (in range order). -/
def processRanges : List String → List String × List Warning
  | [] => ([], [])
  | r :: rest =>
    let acc := processRanges rest
    match ip_network r with
    | some nw => (nw.hostsNat.map ipToString ++ acc.1, acc.2)
    | none => (acc.1, Warning.invalidRange r :: acc.2)

/-- The cumulative host-address pool (`all_ips` in the source). -/
def allIps (ip_ranges : List String) : List String := (processRanges ip_ranges).1

/-- The parse warnings emitted while building the pool. -/
def rangeWarnings (ip_ranges : List String) : List Warning := (processRanges ip_ranges).2

/-- Models the `while len(unique_ips) < num_ips: unique_ips.add(random.choice(all_ips))`
loop: `s` is the stream of random draws (step `i` picks
`pool[s i % pool.length]`), `acc` the unique set in insertion order,
and `fuel` bounds the number of iterations; `none` means the loop has
not finished within `fuel` iterations. -/
def drawLoop (pool : List String) (target : Nat) (s : Nat → Nat) :
    Nat → Nat → List String → Option (List String)
  | 0, _, acc => if target ≤ acc.length then some acc else none
  | fuel + 1, step, acc =>
    if target ≤ acc.length then some acc
    else
      drawLoop pool target s fuel (step + 1)
        (if pool.getD (s step % pool.length) "" ∈ acc then acc
         else acc ++ [pool.getD (s step % pool.length) ""])

/-- Models `",".join(...)` on the drawn list. -/
def joinComma : List String → String
  | [] => ""
  | [x] => x
  | x :: y :: xs => x ++ "," ++ joinComma (y :: xs)

/-- Shallow embedding of `generate_ips(ip_ranges, num_ips)`.  `fuel`
bounds the draw loop and `s` is the randomness stream; the result is
`Except.error` for the `ValueError` raise, and otherwise the emitted
warnings together with `some` joined string, or `none` when the draw
loop does not finish within `fuel` iterations. -/
def generate_ips (fuel : Nat) (s : Nat → Nat) (ip_ranges : List String) (num_ips : Int) :
    Except String (List Warning × Option String) :=
  if ¬ (10 ≤ num_ips ∧ num_ips ≤ 5000) then
    .error "IP 地址数量必须在 10 到 5000 之间。"
  else if (allIps ip_ranges).isEmpty then
    .ok (rangeWarnings ip_ranges, some "")
  else if (allIps ip_ranges).length < num_ips.toNat then
    .ok (rangeWarnings ip_ranges ++ [Warning.clamp num_ips.toNat (allIps ip_ranges).length],
      (drawLoop (allIps ip_ranges) (allIps ip_ranges).length s fuel 0 []).map joinComma)
  else
    .ok (rangeWarnings ip_ranges,
      (drawLoop (allIps ip_ranges) num_ips.toNat s fuel 0 []).map joinComma)

/-- A duplicate-free list whose elements all lie in `pool` is no longer
than the number of distinct elements of `pool`. -/
theorem nodup_length_le_dedup (l pool : List String) (hnd : l.Nodup)
    (hsub : ∀ x ∈ l, x ∈ pool) : l.length ≤ pool.dedup.length := by
  have h1 : l.toFinset.card = l.length := List.toFinset_card_of_nodup hnd
  have h2 : pool.toFinset.card = pool.dedup.length := List.card_toFinset pool
  have h3 : l.toFinset ⊆ pool.toFinset := by
    intro a ha
    exact List.mem_toFinset.mpr (hsub a (List.mem_toFinset.mp ha))
  have h4 := Finset.card_le_card h3
  omega

/-- A draw from a non-empty pool is an element of the pool. -/
theorem getD_mem_of_ne_nil (pool : List String) (i : Nat) (hp : pool ≠ []) :
    pool.getD (i % pool.length) "" ∈ pool := by
  have hlen : 0 < pool.length := List.length_pos.mpr hp
  have hi : i % pool.length < pool.length := Nat.mod_lt _ hlen
  rw [List.getD_eq_getElem?_getD, List.getElem?_eq_getElem hi]
  exact List.getElem_mem hi

/-- When the draw loop finishes from a not-yet-full set, the final set
has exactly the target size. -/
theorem drawLoop_length (pool : List String) (target : Nat) (s : Nat → Nat) :
    ∀ fuel step acc l, acc.length ≤ target →
      drawLoop pool target s fuel step acc = some l → l.length = target := by
  intro fuel
  induction fuel with
  | zero =>
    intro step acc l hle h
    unfold drawLoop at h
    split at h
    · cases h; omega
    · exact absurd h (by simp)
  | succ f ih =>
    intro step acc l hle h
    unfold drawLoop at h
    split at h
    next hge => cases h; omega
    next hlt =>
      refine ih _ _ _ ?_ h
      split
      · exact hle
      · simp only [List.length_append, List.length_singleton]; omega

/-- The draw loop preserves freedom from duplicates. -/
theorem drawLoop_nodup (pool : List String) (target : Nat) (s : Nat → Nat) :
    ∀ fuel step acc l, acc.Nodup →
      drawLoop pool target s fuel step acc = some l → l.Nodup := by
  intro fuel
  induction fuel with
  | zero =>
    intro step acc l hnd h
    unfold drawLoop at h
    split at h
    · cases h; exact hnd
    · exact absurd h (by simp)
  | succ f ih =>
    intro step acc l hnd h
    unfold drawLoop at h
    split at h
    next hge => cases h; exact hnd
    next hlt =>
      refine ih _ _ _ ?_ h
      split
      · exact hnd
      next hmem =>
        refine List.Nodup.append hnd (List.nodup_singleton _) ?_
        intro x hx hx'
        rw [List.mem_singleton.mp hx'] at hx
        exact hmem hx

/-- Every element of the finished set comes from the starting set or
the pool. -/
theorem drawLoop_subset (pool : List String) (target : Nat) (s : Nat → Nat)
    (hp : pool ≠ []) :
    ∀ fuel step acc l, (∀ x ∈ acc, x ∈ pool) →
      drawLoop pool target s fuel step acc = some l → ∀ x ∈ l, x ∈ pool := by
  intro fuel
  induction fuel with
  | zero =>
    intro step acc l hsub h
    unfold drawLoop at h
    split at h
    · cases h; exact hsub
    · exact absurd h (by simp)
  | succ f ih =>
    intro step acc l hsub h
    unfold drawLoop at h
    split at h
    next hge => cases h; exact hsub
    next hlt =>
      refine ih _ _ _ ?_ h
      split
      · exact hsub
      · intro x hx
        rcases List.mem_append.mp hx with hx | hx
        · exact hsub x hx
        · rw [List.mem_singleton.mp hx]
          exact getD_mem_of_ne_nil pool _ hp

/-- When the target exceeds the number of distinct pool elements, the
draw loop can never finish: the unique set cannot reach the target. -/
theorem drawLoop_none (pool : List String) (target : Nat) (s : Nat → Nat)
    (hp : pool ≠ []) (hlt : pool.dedup.length < target) :
    ∀ fuel step acc, acc.Nodup → (∀ x ∈ acc, x ∈ pool) →
      drawLoop pool target s fuel step acc = none := by
  intro fuel step acc hnd hsub
  cases hres : drawLoop pool target s fuel step acc with
  | none => rfl
  | some l =>
    exfalso
    have hle : acc.length ≤ target :=
      le_of_lt (lt_of_le_of_lt (nodup_length_le_dedup _ _ hnd hsub) hlt)
    have h1 := drawLoop_length pool target s fuel step acc l hle hres
    have h2 := drawLoop_nodup pool target s fuel step acc l hnd hres
    have h3 := drawLoop_subset pool target s hp fuel step acc l hsub hres
    have h4 := nodup_length_le_dedup l pool h2 h3
    omega

/-- Unfolding of `generate_ips` for an in-bounds count. -/
theorem generate_ips_valid (fuel : Nat) (s : Nat → Nat) (ranges : List String)
    (count : Int) (h10 : 10 ≤ count) (h5000 : count ≤ 5000) :
    generate_ips fuel s ranges count =
      if (allIps ranges).isEmpty then .ok (rangeWarnings ranges, some "")
      else if (allIps ranges).length < count.toNat then
        .ok (rangeWarnings ranges ++ [Warning.clamp count.toNat (allIps ranges).length],
          (drawLoop (allIps ranges) (allIps ranges).length s fuel 0 []).map joinComma)
      else
        .ok (rangeWarnings ranges,
          (drawLoop (allIps ranges) count.toNat s fuel 0 []).map joinComma) := by
  unfold generate_ips
  rw [if_neg (by omega)]

/-- Inversion: a successful run of `generate_ips` is either the
empty-pool shortcut or a finished draw loop at the clamped target. -/
theorem generate_ips_some_inv (fuel : Nat) (s : Nat → Nat) (ranges : List String)
    (count : Int) (ws : List Warning) (out : String)
    (h : generate_ips fuel s ranges count = .ok (ws, some out)) :
    (10 ≤ count ∧ count ≤ 5000) ∧
      ((allIps ranges = [] ∧ ws = rangeWarnings ranges ∧ out = "") ∨
        (allIps ranges ≠ [] ∧
          ∃ l, drawLoop (allIps ranges) (min (allIps ranges).length count.toNat)
              s fuel 0 [] = some l ∧ out = joinComma l)) := by
  unfold generate_ips at h
  split at h
  · exact absurd h (by simp)
  next hb =>
    refine ⟨by omega, ?_⟩
    split at h
    next hemp =>
      left
      simp only [Except.ok.injEq, Prod.mk.injEq, Option.some.injEq] at h
      exact ⟨List.isEmpty_iff.mp hemp, h.1.symm, h.2.symm⟩
    next hemp =>
      right
      have hne : allIps ranges ≠ [] := by simpa [List.isEmpty_iff] using hemp
      refine ⟨hne, ?_⟩
      split at h
      next hlt =>
        rw [Nat.min_eq_left (le_of_lt hlt)]
        simp only [Except.ok.injEq, Prod.mk.injEq] at h
        obtain ⟨l, hl, hjoin⟩ := Option.map_eq_some'.mp h.2
        exact ⟨l, hl, hjoin.symm⟩
      next hge =>
        rw [Nat.min_eq_right (le_of_not_lt hge)]
        simp only [Except.ok.injEq, Prod.mk.injEq] at h
        obtain ⟨l, hl, hjoin⟩ := Option.map_eq_some'.mp h.2
        exact ⟨l, hl, hjoin.symm⟩

/-- Unfolding of the pool for a cons cell. -/
theorem allIps_cons (r : String) (rest : List String) :
    allIps (r :: rest) =
      (match ip_network r with
       | some nw => nw.hostsNat.map ipToString
       | none => []) ++ allIps rest := by
  cases hr : ip_network r with
  | none => simp [allIps, processRanges, hr]
  | some nw => simp [allIps, processRanges, hr]

/-- Unfolding of the warnings for a cons cell. -/
theorem rangeWarnings_cons (r : String) (rest : List String) :
    rangeWarnings (r :: rest) =
      (match ip_network r with
       | some _ => []
       | none => [Warning.invalidRange r]) ++ rangeWarnings rest := by
  cases hr : ip_network r with
  | none => simp [rangeWarnings, processRanges, hr]
  | some nw => simp [rangeWarnings, processRanges, hr]

/-- Pool membership: an address string is in the pool exactly when it
is the string of a usable host of some successfully parsed range. -/
theorem mem_allIps (x : String) (ranges : List String) :
    x ∈ allIps ranges ↔
      ∃ r ∈ ranges, ∃ nw, ip_network r = some nw ∧
        ∃ ipv ∈ nw.hostsNat, x = ipToString ipv := by
  induction ranges with
  | nil => simp [allIps, processRanges]
  | cons r rest ih =>
    rw [allIps_cons, List.mem_append, ih]
    cases hr : ip_network r with
    | none =>
      simp only [List.not_mem_nil, false_or]
      constructor
      · rintro ⟨r', hr', hrest⟩
        exact ⟨r', List.mem_cons_of_mem _ hr', hrest⟩
      · rintro ⟨r', hmem, nw, hnw, hrest⟩
        rcases List.mem_cons.mp hmem with rfl | hmem'
        · rw [hr] at hnw; cases hnw
        · exact ⟨r', hmem', nw, hnw, hrest⟩
    | some nw0 =>
      constructor
      · rintro (hx | ⟨r', hr', hrest⟩)
        · obtain ⟨ipv, hipv, hxe⟩ := List.mem_map.mp hx
          exact ⟨r, List.mem_cons_self _ _, nw0, hr, ipv, hipv, hxe.symm⟩
        · exact ⟨r', List.mem_cons_of_mem _ hr', hrest⟩
      · rintro ⟨r', hmem, nw, hnw, ipv, hipv, hxe⟩
        rcases List.mem_cons.mp hmem with rfl | hmem'
        · rw [hr] at hnw
          cases hnw
          exact Or.inl (List.mem_map.mpr ⟨ipv, hipv, hxe.symm⟩)
        · exact Or.inr ⟨r', hmem', nw, hnw, ipv, hipv, hxe⟩

/-- For a prefix length of at most 30, `hosts()` contains neither the
network address nor the broadcast address. -/
theorem hostsNat_excludes (nw : IPv4Network) (hp : nw.prefixlen ≤ 30) :
    nw.networkAddress ∉ nw.hostsNat ∧ nw.broadcastAddress ∉ nw.hostsNat := by
  have h4 : 4 ≤ nw.numAddresses := by
    have h := Nat.pow_le_pow_right (show 0 < 2 by norm_num)
      (show 2 ≤ 32 - nw.prefixlen by omega)
    simpa [IPv4Network.numAddresses] using h
  unfold IPv4Network.hostsNat
  rw [if_neg (by omega), if_neg (by omega)]
  constructor
  · intro hmem
    obtain ⟨i, hi, heq⟩ := List.mem_map.mp hmem
    omega
  · intro hmem
    obtain ⟨i, hi, heq⟩ := List.mem_map.mp hmem
    rw [List.mem_range] at hi
    unfold IPv4Network.broadcastAddress at heq
    omega

/-- Dropping the unparsable ranges leaves the pool unchanged. -/
theorem allIps_filter (ranges : List String) :
    allIps (ranges.filter fun r => (ip_network r).isSome) = allIps ranges := by
  induction ranges with
  | nil => rfl
  | cons r rest ih =>
    rw [List.filter_cons]
    cases hr : ip_network r with
    | none => simp [hr, allIps_cons, ih]
    | some nw => simp [hr, allIps_cons, ih]

/-- Every unparsable member of the ranges list gets its warning. -/
theorem invalid_mem_rangeWarnings (bad : String) (ranges : List String)
    (hmem : bad ∈ ranges) (hbad : ip_network bad = none) :
    Warning.invalidRange bad ∈ rangeWarnings ranges := by
  induction ranges with
  | nil => cases hmem
  | cons r rest ih =>
    rw [rangeWarnings_cons]
    rcases List.mem_cons.mp hmem with rfl | hmem'
    · simp [hbad]
    · cases ip_network r <;> simp [ih hmem']

/-- Two ranges lists with the same pool produce the same output
component (the warnings may differ). -/
theorem generate_ips_same_pool (fuel : Nat) (s : Nat → Nat)
    (ranges1 ranges2 : List String) (count : Int)
    (h10 : 10 ≤ count) (h5000 : count ≤ 5000)
    (hpool : allIps ranges1 = allIps ranges2) :
    ∃ ws ws' o, generate_ips fuel s ranges1 count = .ok (ws, o) ∧
      generate_ips fuel s ranges2 count = .ok (ws', o) := by
  rw [generate_ips_valid _ _ _ _ h10 h5000, generate_ips_valid _ _ _ _ h10 h5000, hpool]
  by_cases hemp : (allIps ranges2).isEmpty
  · rw [if_pos hemp, if_pos hemp]
    exact ⟨_, _, _, rfl, rfl⟩
  · rw [if_neg hemp, if_neg hemp]
    by_cases hlt : (allIps ranges2).length < count.toNat
    · rw [if_pos hlt, if_pos hlt]
      exact ⟨_, _, _, rfl, rfl⟩
    · rw [if_neg hlt, if_neg hlt]
      exact ⟨_, _, _, rfl, rfl⟩

/-- C4: for every ranges list and every count with count < 10 or
count > 5000, `generate_ips` fails with the `ValueError` before any
range processing occurs: the result is the bare error (no warnings, no
pool is built), and this holds even when ranges is empty. -/
theorem c4_out_of_bounds_count_rejected (fuel : Nat) (s : Nat → Nat)
    (ranges : List String) (count : Int)
    (h : count < 10 ∨ 5000 < count) :
    generate_ips fuel s ranges count = .error "IP 地址数量必须在 10 到 5000 之间。" := by
  unfold generate_ips
  rw [if_pos (by omega)]

/-- Witness for C4 at count 7 and an empty ranges list. -/
theorem c4_out_of_bounds_count_rejected_witness :
    ((7 : Int) < 10 ∨ (5000 : Int) < 7) ∧
      generate_ips 0 (fun _ => 0) [] 7 = .error "IP 地址数量必须在 10 到 5000 之间。" :=
  ⟨Or.inl (by norm_num),
    c4_out_of_bounds_count_rejected 0 (fun _ => 0) [] 7 (Or.inl (by norm_num))⟩

/-- C6: for an in-bounds count and a ranges list whose processing
yields an empty pool, `generate_ips` returns the empty string (with
the parse warnings) and does not raise an error. -/
theorem c6_empty_pool_returns_empty_string (fuel : Nat) (s : Nat → Nat)
    (ranges : List String) (count : Int)
    (h10 : 10 ≤ count) (h5000 : count ≤ 5000)
    (hempty : allIps ranges = []) :
    generate_ips fuel s ranges count = .ok (rangeWarnings ranges, some "") := by
  rw [generate_ips_valid fuel s ranges count h10 h5000,
    if_pos (List.isEmpty_iff.mpr hempty)]

/-- Witness for C6 at ranges = ["not-a-cidr"], count = 20. -/
theorem c6_empty_pool_returns_empty_string_witness :
    (10 : Int) ≤ 20 ∧ (20 : Int) ≤ 5000 ∧ allIps ["not-a-cidr"] = [] ∧
      generate_ips 0 (fun _ => 0) ["not-a-cidr"] 20 =
        .ok (rangeWarnings ["not-a-cidr"], some "") :=
  ⟨by norm_num, by norm_num, by decide,
    c6_empty_pool_returns_empty_string 0 (fun _ => 0) ["not-a-cidr"] 20
      (by norm_num) (by norm_num) (by decide)⟩

/-- C7: on every input on which `generate_ips` returns, the returned
string joins a duplicate-free list of pool addresses whose length
never exceeds the pool size.  (The pool-membership conjunct pins the
`joinComma` decomposition: pool elements are dotted-quad strings, so
the list of addresses the string denotes is the stated one.) -/
theorem c7_result_nodup_and_bounded (fuel : Nat) (s : Nat → Nat)
    (ranges : List String) (count : Int) (ws : List Warning) (out : String)
    (h : generate_ips fuel s ranges count = .ok (ws, some out)) :
    ∃ l, out = joinComma l ∧ l.Nodup ∧ l.length ≤ (allIps ranges).length ∧
      ∀ x ∈ l, x ∈ allIps ranges := by
  obtain ⟨-, hcase⟩ := generate_ips_some_inv _ _ _ _ _ _ h
  rcases hcase with ⟨hemp, -, hout⟩ | ⟨hne, l, hl, hout⟩
  · exact ⟨[], by rw [hout]; rfl, List.nodup_nil, by simp, by simp⟩
  · refine ⟨l, hout, drawLoop_nodup _ _ _ _ _ _ _ List.nodup_nil hl, ?_,
      drawLoop_subset _ _ _ hne _ _ _ _ (by simp) hl⟩
    have hlen := drawLoop_length _ _ _ _ _ _ _ (Nat.zero_le _) hl
    rw [hlen]
    exact Nat.min_le_left _ _

/-- Witness for C7 at ranges = ["192.168.1.0/30"], count = 10. -/
theorem c7_result_nodup_and_bounded_witness :
    generate_ips 2 (fun i => i) ["192.168.1.0/30"] 10 =
        .ok ([Warning.clamp 10 2], some "192.168.1.1,192.168.1.2") ∧
      ∃ l, "192.168.1.1,192.168.1.2" = joinComma l ∧ l.Nodup ∧
        l.length ≤ (allIps ["192.168.1.0/30"]).length ∧
        ∀ x ∈ l, x ∈ allIps ["192.168.1.0/30"] :=
  ⟨rfl,
    c7_result_nodup_and_bounded 2 (fun i => i) ["192.168.1.0/30"] 10
      [Warning.clamp 10 2] "192.168.1.1,192.168.1.2" rfl⟩

/-- C8: a malformed CIDR entry in the ranges list produces a warning
naming that entry, is skipped without aborting, and the output
component of the result equals the one produced from the parsable
ranges alone (the warnings may differ). -/
theorem c8_malformed_range_skipped (fuel : Nat) (s : Nat → Nat)
    (ranges : List String) (count : Int) (bad : String)
    (hmem : bad ∈ ranges) (hbad : ip_network bad = none)
    (h10 : 10 ≤ count) (h5000 : count ≤ 5000) :
    Warning.invalidRange bad ∈ rangeWarnings ranges ∧
      ∃ ws ws' o, generate_ips fuel s ranges count = .ok (ws, o) ∧
        generate_ips fuel s (ranges.filter fun r => (ip_network r).isSome) count =
          .ok (ws', o) := by
  refine ⟨invalid_mem_rangeWarnings bad ranges hmem hbad, ?_⟩
  exact generate_ips_same_pool fuel s ranges _ count h10 h5000 (allIps_filter ranges).symm

/-- Witness for C8 at ranges = ["foo", "192.168.1.0/30"], count = 10. -/
theorem c8_malformed_range_skipped_witness :
    "foo" ∈ ["foo", "192.168.1.0/30"] ∧ ip_network "foo" = none ∧
      (10 : Int) ≤ 10 ∧ (10 : Int) ≤ 5000 ∧
      (Warning.invalidRange "foo" ∈ rangeWarnings ["foo", "192.168.1.0/30"] ∧
        ∃ ws ws' o,
          generate_ips 2 (fun i => i) ["foo", "192.168.1.0/30"] 10 = .ok (ws, o) ∧
          generate_ips 2 (fun i => i)
            (["foo", "192.168.1.0/30"].filter fun r => (ip_network r).isSome) 10 =
            .ok (ws', o)) :=
  ⟨by decide, by decide, by norm_num, by norm_num,
    c8_malformed_range_skipped 2 (fun i => i) ["foo", "192.168.1.0/30"] 10 "foo"
      (by decide) (by decide) (by norm_num) (by norm_num)⟩

/-- C9: `generate_ips` is deterministic given its inputs and the state
of the randomness source: two runs with the same ranges, count and
draw-for-draw identical randomness return the same result. -/
theorem c9_deterministic (fuel : Nat) (ranges : List String) (count : Int)
    (s1 s2 : Nat → Nat) (hs : ∀ i, s1 i = s2 i) :
    generate_ips fuel s1 ranges count = generate_ips fuel s2 ranges count := by
  rw [show s1 = s2 from funext hs]

/-- Witness for C9 at two syntactically different but pointwise equal
randomness streams. -/
theorem c9_deterministic_witness :
    generate_ips 2 (fun i => i) ["192.168.1.0/30"] 10 =
      generate_ips 2 (fun i => i + 0) ["192.168.1.0/30"] 10 :=
  c9_deterministic 2 ["192.168.1.0/30"] 10 (fun i => i) (fun i => i + 0)
    (fun _ => rfl)

/-- C10: a syntactically well-formed CIDR string with set host bits,
such as "192.168.1.1/24", fails the strict parse: it is warned about,
skipped, contributes no addresses to the pool, and the output
component equals the one computed from the remaining ranges alone. -/
theorem c10_host_bits_rejected (fuel : Nat) (s : Nat → Nat)
    (rest : List String) (count : Int)
    (h10 : 10 ≤ count) (h5000 : count ≤ 5000) :
    ip_network "192.168.1.1/24" = none ∧
      allIps ("192.168.1.1/24" :: rest) = allIps rest ∧
      Warning.invalidRange "192.168.1.1/24" ∈ rangeWarnings ("192.168.1.1/24" :: rest) ∧
      ∃ ws ws' o, generate_ips fuel s ("192.168.1.1/24" :: rest) count = .ok (ws, o) ∧
        generate_ips fuel s rest count = .ok (ws', o) := by
  have hbad : ip_network "192.168.1.1/24" = none := by decide
  have hcons : allIps ("192.168.1.1/24" :: rest) = allIps rest := by
    rw [allIps_cons, hbad]
    rfl
  refine ⟨hbad, hcons,
    invalid_mem_rangeWarnings _ _ (List.mem_cons_self _ _) hbad, ?_⟩
  exact generate_ips_same_pool fuel s _ rest count h10 h5000 hcons

/-- Witness for C10 at rest = ["10.0.0.0/28"], count = 10. -/
theorem c10_host_bits_rejected_witness :
    (10 : Int) ≤ 10 ∧ (10 : Int) ≤ 5000 ∧
      (ip_network "192.168.1.1/24" = none ∧
        allIps ("192.168.1.1/24" :: ["10.0.0.0/28"]) = allIps ["10.0.0.0/28"] ∧
        Warning.invalidRange "192.168.1.1/24" ∈
          rangeWarnings ("192.168.1.1/24" :: ["10.0.0.0/28"]) ∧
        ∃ ws ws' o,
          generate_ips 10 (fun i => i) ("192.168.1.1/24" :: ["10.0.0.0/28"]) 10 =
            .ok (ws, o) ∧
          generate_ips 10 (fun i => i) ["10.0.0.0/28"] 10 = .ok (ws', o)) :=
  ⟨by norm_num, by norm_num,
    c10_host_bits_rejected 10 (fun i => i) ["10.0.0.0/28"] 10
      (by norm_num) (by norm_num)⟩

/-- C1 counterexample: ranges = ["192.168.1.0/29", "192.168.1.0/29"]
and count = 10 give a cumulative pool of 12 entries (at least the
count), yet `generate_ips` can never return: only 6 distinct addresses
exist, so the uniqueness loop never reaches 10, for every randomness
stream and every amount of fuel. -/
theorem c1_counterexample :
    ¬ ∃ (fuel : Nat) (s : Nat → Nat) (ws : List Warning) (out : String),
        generate_ips fuel s ["192.168.1.0/29", "192.168.1.0/29"] 10 =
          Except.ok (ws, some out) := by
  rintro ⟨fuel, s, ws, out, h⟩
  obtain ⟨-, hcase⟩ := generate_ips_some_inv _ _ _ _ _ _ h
  rcases hcase with ⟨hemp, -, -⟩ | ⟨hne, l, hl, -⟩
  · exact absurd hemp (by decide)
  · rw [drawLoop_none (allIps ["192.168.1.0/29", "192.168.1.0/29"])
      (min (allIps ["192.168.1.0/29", "192.168.1.0/29"]).length (10 : Int).toNat) s
      (by decide) (by decide) fuel 0 [] List.nodup_nil (by simp)] at hl
    cases hl

/-- C1 (amended): for an in-bounds count and a ranges list whose
cumulative pool has size at least count, whenever the sampling loop
terminates the result joins exactly count distinct addresses, each a
usable host address of one of the successfully parsed ranges.
(Termination is not guaranteed: it is impossible whenever the pool
holds fewer than count distinct addresses, as the counterexample
shows.) -/
theorem c1_amended (fuel : Nat) (s : Nat → Nat) (ranges : List String)
    (count : Int) (ws : List Warning) (out : String)
    (h10 : 10 ≤ count) (h5000 : count ≤ 5000)
    (hpool : count.toNat ≤ (allIps ranges).length)
    (h : generate_ips fuel s ranges count = .ok (ws, some out)) :
    ∃ l, out = joinComma l ∧ l.Nodup ∧ l.length = count.toNat ∧
      ∀ x ∈ l, x ∈ allIps ranges := by
  obtain ⟨-, hcase⟩ := generate_ips_some_inv _ _ _ _ _ _ h
  rcases hcase with ⟨hemp, -, -⟩ | ⟨hne, l, hl, hout⟩
  · exfalso
    rw [hemp] at hpool
    simp only [List.length_nil, Nat.le_zero] at hpool
    omega
  · rw [Nat.min_eq_right hpool] at hl
    exact ⟨l, hout, drawLoop_nodup _ _ _ _ _ _ _ List.nodup_nil hl,
      drawLoop_length _ _ _ _ _ _ _ (Nat.zero_le _) hl,
      drawLoop_subset _ _ _ hne _ _ _ _ (by simp) hl⟩

/-- Witness for C1 (amended) at ranges = ["192.168.1.0/28"],
count = 10, with a round-robin randomness stream. -/
theorem c1_amended_witness :
    (10 : Int) ≤ 10 ∧ (10 : Int) ≤ 5000 ∧
      (10 : Int).toNat ≤ (allIps ["192.168.1.0/28"]).length ∧
      generate_ips 10 (fun i => i) ["192.168.1.0/28"] 10 =
        .ok ([], some "192.168.1.1,192.168.1.2,192.168.1.3,192.168.1.4,192.168.1.5,192.168.1.6,192.168.1.7,192.168.1.8,192.168.1.9,192.168.1.10") ∧
      ∃ l, "192.168.1.1,192.168.1.2,192.168.1.3,192.168.1.4,192.168.1.5,192.168.1.6,192.168.1.7,192.168.1.8,192.168.1.9,192.168.1.10" = joinComma l ∧
        l.Nodup ∧ l.length = (10 : Int).toNat ∧ ∀ x ∈ l, x ∈ allIps ["192.168.1.0/28"] :=
  ⟨by norm_num, by norm_num, by decide, rfl,
    c1_amended 10 (fun i => i) ["192.168.1.0/28"] 10 [] _
      (by norm_num) (by norm_num) (by decide) rfl⟩

/-- C2: evaluation at the failing input.  For
ranges = ["192.168.1.0/30", "192.168.1.0/30"] and count = 10 the code
clamps the count to the duplicated pool length 4, but only 2 distinct
addresses exist, so the draw loop never reaches 4: `generate_ips`
diverges (returns within no finite fuel) for every randomness stream,
while the claim asserts termination for overlapping ranges. -/
theorem c2_overlap_divergence (fuel : Nat) (s : Nat → Nat) :
    generate_ips fuel s ["192.168.1.0/30", "192.168.1.0/30"] 10 =
      .ok ([Warning.clamp 10 4], none) := by
  rw [generate_ips_valid _ _ _ _ (by norm_num) (by norm_num),
    if_neg (by decide), if_pos (by decide),
    drawLoop_none (allIps ["192.168.1.0/30", "192.168.1.0/30"])
      (allIps ["192.168.1.0/30", "192.168.1.0/30"]).length s
      (by decide) (by decide) fuel 0 [] List.nodup_nil (by simp)]
  rfl

/-- C3: evaluation at the failing input.  For
ranges = ["10.0.0.8/30", "10.0.0.8/30"] and count = 10 the pool is
non-empty, count exceeds the pool size, the clamp warning is emitted,
but the full pool is never returned: the loop needs 4 unique addresses
where only 2 distinct exist, so `generate_ips` diverges for every
randomness stream and every amount of fuel. -/
theorem c3_full_pool_never_returned (fuel : Nat) (s : Nat → Nat) :
    generate_ips fuel s ["10.0.0.8/30", "10.0.0.8/30"] 10 =
      .ok ([Warning.clamp 10 4], none) := by
  rw [generate_ips_valid _ _ _ _ (by norm_num) (by norm_num),
    if_neg (by decide), if_pos (by decide),
    drawLoop_none (allIps ["10.0.0.8/30", "10.0.0.8/30"])
      (allIps ["10.0.0.8/30", "10.0.0.8/30"]).length s
      (by decide) (by decide) fuel 0 [] List.nodup_nil (by simp)]
  rfl

/-- C5 counterexample: the /31 range "192.168.1.0/31" puts both of its
addresses into the pool, and a terminating run returns its network
address 192.168.1.0 and broadcast address 192.168.1.1; moreover even
for a /30 range the network address 10.0.0.4 of "10.0.0.4/30" reaches
the result through the overlapping range "10.0.0.0/28". -/
theorem c5_counterexample :
    generate_ips 2 (fun i => i) ["192.168.1.0/31"] 10 =
        .ok ([Warning.clamp 10 2], some "192.168.1.0,192.168.1.1") ∧
      ip_network "192.168.1.0/31" = some ⟨3232235776, 31⟩ ∧
      ipToString (IPv4Network.networkAddress ⟨3232235776, 31⟩) = "192.168.1.0" ∧
      ipToString (IPv4Network.broadcastAddress ⟨3232235776, 31⟩) = "192.168.1.1" ∧
      drawLoop (allIps ["192.168.1.0/31"]) 2 (fun i => i) 2 0 [] =
        some ["192.168.1.0", "192.168.1.1"] ∧
      generate_ips 10 (fun i => i + 2) ["10.0.0.4/30", "10.0.0.0/28"] 10 =
        .ok ([], some "10.0.0.1,10.0.0.2,10.0.0.3,10.0.0.4,10.0.0.5,10.0.0.6,10.0.0.7,10.0.0.8,10.0.0.9,10.0.0.10") ∧
      ip_network "10.0.0.4/30" = some ⟨167772164, 30⟩ ∧
      ipToString (IPv4Network.networkAddress ⟨167772164, 30⟩) = "10.0.0.4" ∧
      drawLoop (allIps ["10.0.0.4/30", "10.0.0.0/28"]) 10 (fun i => i + 2) 10 0 [] =
        some ["10.0.0.1", "10.0.0.2", "10.0.0.3", "10.0.0.4", "10.0.0.5",
          "10.0.0.6", "10.0.0.7", "10.0.0.8", "10.0.0.9", "10.0.0.10"] ∧
      "10.0.0.4" ∈ ["10.0.0.1", "10.0.0.2", "10.0.0.3", "10.0.0.4", "10.0.0.5",
        "10.0.0.6", "10.0.0.7", "10.0.0.8", "10.0.0.9", "10.0.0.10"] :=
  ⟨rfl, rfl, rfl, rfl, rfl, rfl, rfl, rfl, rfl, by decide⟩

/-- C5 (amended): every range parsed with prefix length at most 30
contributes only strictly interior addresses — its network and
broadcast addresses are excluded from its own contribution — and every
address in a returned result is the string of a contributed host of
some parsed range.  (A /31 or /32 range contributes all its addresses,
and an excluded address can still appear through a different
overlapping range, as the counterexample shows.) -/
theorem c5_amended (fuel : Nat) (s : Nat → Nat) (ranges : List String)
    (count : Int) (ws : List Warning) (out : String)
    (h : generate_ips fuel s ranges count = .ok (ws, some out)) :
    (∀ r ∈ ranges, ∀ nw, ip_network r = some nw → nw.prefixlen ≤ 30 →
        nw.networkAddress ∉ nw.hostsNat ∧ nw.broadcastAddress ∉ nw.hostsNat) ∧
      ∃ l, out = joinComma l ∧
        ∀ x ∈ l, ∃ r ∈ ranges, ∃ nw, ip_network r = some nw ∧
          ∃ ipv ∈ nw.hostsNat, x = ipToString ipv := by
  refine ⟨fun r _ nw _ hp => hostsNat_excludes nw hp, ?_⟩
  obtain ⟨-, hcase⟩ := generate_ips_some_inv _ _ _ _ _ _ h
  rcases hcase with ⟨-, -, hout⟩ | ⟨hne, l, hl, hout⟩
  · exact ⟨[], by rw [hout]; rfl, by simp⟩
  · refine ⟨l, hout, fun x hx => ?_⟩
    exact (mem_allIps x ranges).mp
      (drawLoop_subset _ _ _ hne _ _ _ _ (by simp) hl x hx)

/-- Witness for C5 (amended) at ranges = ["10.1.0.0/29"], count = 10. -/
theorem c5_amended_witness :
    generate_ips 6 (fun i => i) ["10.1.0.0/29"] 10 =
        .ok ([Warning.clamp 10 6], some "10.1.0.1,10.1.0.2,10.1.0.3,10.1.0.4,10.1.0.5,10.1.0.6") ∧
      ((∀ r ∈ ["10.1.0.0/29"], ∀ nw, ip_network r = some nw → nw.prefixlen ≤ 30 →
          nw.networkAddress ∉ nw.hostsNat ∧ nw.broadcastAddress ∉ nw.hostsNat) ∧
        ∃ l, "10.1.0.1,10.1.0.2,10.1.0.3,10.1.0.4,10.1.0.5,10.1.0.6" = joinComma l ∧
          ∀ x ∈ l, ∃ r ∈ ["10.1.0.0/29"], ∃ nw, ip_network r = some nw ∧
            ∃ ipv ∈ nw.hostsNat, x = ipToString ipv) :=
  ⟨rfl, c5_amended 6 (fun i => i) ["10.1.0.0/29"] 10 [Warning.clamp 10 6] _ rfl⟩

end IpGen
